/-
Verification development for the speer evidence-extraction engine
(src/speer_core.py).  The Python module is shallowly embedded: pure
functions become Lean functions on `List Char` / `String`, Python floats
produced by decimal parsing are modelled exactly as rationals (ℚ), the
I/O collaborators (PDF text extraction, OCR, file hashing) are modelled
as a total oracle record `Env` whose fallible members return
`Except String String` (the `error` case standing for a raised
exception, carrying `str(exc)`).  The concrete regular expressions of
the source are hand-compiled to deterministic matchers; greedy
character-class stars in these patterns are always followed by a token
disjoint from the class, so maximal-munch matching coincides with the
backtracking semantics of Python `re` (leftmost position first, then
alternative order, then greedy length).  Unicode-only behaviour
(non-ASCII letters/digits/whitespace) is outside the model; the engine
feeds the matchers ASCII text fragments.
-/
import Mathlib

set_option maxRecDepth 8000

namespace Speer

/-! ## Python string primitives -/

/-- Whitespace as recognised by Python `str.strip`, the regex class
`\s`, and `float()` — ASCII whitespace plus the no-break space. -/
def pyIsSpace (c : Char) : Bool :=
  c == ' ' || c == '\t' || c == '\n' || c == '\r' || c == '\x0b' || c == '\x0c' || c == '\u00A0'

/-- `str.strip()` on a character list. -/
def stripList (l : List Char) : List Char :=
  ((l.dropWhile pyIsSpace).reverse.dropWhile pyIsSpace).reverse

/-- `str.strip()`. -/
def pyStripStr (s : String) : String := ⟨stripList s.data⟩

/-- `str.lower()` (ASCII). -/
def pyLower (s : String) : String := ⟨s.data.map Char.toLower⟩

/-- `str.upper()` (ASCII). -/
def pyUpper (s : String) : String := ⟨s.data.map Char.toUpper⟩

/-- Python truthiness of an optional string (`None` and `""` are falsy). -/
def pyTruthy : Option String → Bool
  | none => false
  | some s => !(s == "")

/-- First-of-two-alternatives combinator: Python's "return the first
successful branch" control flow. -/
def orElseO {α : Type} (a : Option α) (b : Unit → Option α) : Option α :=
  match a with
  | some v => some v
  | none => b ()

/-- Prefix test on character lists; `str.startswith`. -/
def listIsPrefixOf : List Char → List Char → Bool
  | [], _ => true
  | _ :: _, [] => false
  | c :: cs, x :: xs => c == x && listIsPrefixOf cs xs

/-- `s.startswith(pre)`. -/
def pyStartsWith (s pre : String) : Bool := listIsPrefixOf pre.data s.data

/-! ## Python `float()` on decimal strings, modelled exactly in ℚ

Python's `float(str)` accepts optional surrounding whitespace, an
optional sign, a decimal mantissa with single underscores between
digits, and an optional exponent.  The numeric value is modelled
exactly as a rational (the engine only ever compares amounts with 0 and
reports them, so the double-rounding step is irrelevant).  The literals
`inf`/`nan`, not representable in ℚ, are treated as no-parse; they are
unreachable from the engine, whose candidate strings consist of digits,
separators and whitespace only. -/

/-- Numeric value of an ASCII digit. -/
def digitVal (c : Char) : Nat := c.toNat - 48

/-- Continue scanning a digit group: digits, with single underscores
allowed between digits.  Returns accumulated value, digit count and the
unconsumed rest. -/
def pduGo (acc cnt : Nat) : List Char → Nat × Nat × List Char
  | [] => (acc, cnt, [])
  | c :: rest =>
    if c.isDigit then pduGo (10 * acc + digitVal c) (cnt + 1) rest
    else if c == '_' then
      match rest with
      | d :: r2 =>
        if d.isDigit then pduGo (10 * acc + digitVal d) (cnt + 1) r2
        else (acc, cnt, c :: rest)
      | [] => (acc, cnt, [c])
    else (acc, cnt, c :: rest)

/-- Parse a non-empty digit group (underscores allowed between digits). -/
def parseDigitsU : List Char → Option (Nat × Nat × List Char)
  | c :: rest => if c.isDigit then some (pduGo (digitVal c) 1 rest) else none
  | [] => none

/-- Parse an optional sign; returns `true` when negative. -/
def signParse : List Char → Bool × List Char
  | '+' :: r => (false, r)
  | '-' :: r => (true, r)
  | r => (false, r)

/-- Finish a float parse: after the mantissa, accept the end of input or
an exponent part. -/
def pyFinish (neg : Bool) (m : ℚ) : List Char → Option ℚ
  | [] => some (if neg then -m else m)
  | e :: r2 =>
    if e == 'e' || e == 'E' then
      match signParse r2 with
      | (eneg, r3) =>
        match parseDigitsU r3 with
        | some (ev, _, []) =>
          some ((if neg then -m else m) * (10 : ℚ) ^ (if eneg then -(ev : ℤ) else (ev : ℤ)))
        | _ => none
    else none

/-- Python `float(s)` on decimal strings, valued in ℚ. -/
def pyFloatQ (s : String) : Option ℚ :=
  match signParse (stripList s.data) with
  | (neg, cs1) =>
    match parseDigitsU cs1 with
    | some (n, _, rest) =>
      match rest with
      | '.' :: r2 =>
        (match parseDigitsU r2 with
         | some (f, k, r3) => pyFinish neg ((n : ℚ) + (f : ℚ) / (10 : ℚ) ^ k) r3
         | none => pyFinish neg (n : ℚ) r2)
      | _ => pyFinish neg (n : ℚ) rest
    | none =>
      match cs1 with
      | '.' :: r2 =>
        (match parseDigitsU r2 with
         | some (f, k, r3) => pyFinish neg ((f : ℚ) / (10 : ℚ) ^ k) r3
         | none => none)
      | _ => none

/-! ## `_normalize_amount` (speer_core.py lines 92–101) -/

/-- `_normalize_amount`: strip; remove no-break spaces and spaces; if a
comma is present remove dots and turn the comma into a dot; convert
with `float()`, `None` on failure. -/
def normalize_amount (raw : String) : Option ℚ :=
  let cleaned := stripList raw.data
  let cleaned := cleaned.filter (fun c => !(c == '\u00A0' || c == ' '))
  let cleaned :=
    if cleaned.contains ',' then
      (cleaned.filter (fun c => !(c == '.'))).map (fun c => if c == ',' then '.' else c)
    else cleaned
  pyFloatQ ⟨cleaned⟩

/-! ## `_amount_from_filename` (lines 104–111)

The pattern `([0-9]{1,3}(?:[._][0-9]{3})*(?:,[0-9]{2})|[0-9]+(?:,[0-9]{2})?)`
searched over the file name, leftmost match first, alternatives in
order, greedy with backtracking.  Each `[._]ddd` repetition is exactly
four characters wide, so backtracking enumerates repetition counts
downwards. -/

/-- Number of consecutive `[._][0-9]{3}` groups at the head of the list. -/
def afRepsCount : List Char → Nat
  | x :: a :: b :: c :: rest =>
    if (x == '.' || x == '_') && a.isDigit && b.isDigit && c.isDigit then
      afRepsCount rest + 1
    else 0
  | _ => 0

/-- Does the list start with `,[0-9]{2}`? -/
def commaDD : List Char → Bool
  | ',' :: a :: b :: _ => a.isDigit && b.isDigit
  | _ => false

/-- Greedy repetition-count backtracking for the first alternative:
try `j` repetitions, `j` descending, and require `,dd` after them.
Returns the matched length. -/
def afTryJ (s : List Char) (k : Nat) : Nat → Option Nat
  | 0 => if commaDD (s.drop k) then some (k + 3) else none
  | j + 1 =>
    if commaDD (s.drop (k + 4 * (j + 1))) then some (k + 4 * (j + 1) + 3)
    else afTryJ s k j

/-- Greedy `{1,3}` backtracking for the first alternative: try `k`
leading digits, `k` descending from 3. -/
def afTryK (s : List Char) : Nat → Option Nat
  | 0 => none
  | k + 1 =>
    orElseO
      (if (s.take (k + 1)).length == k + 1 && (s.take (k + 1)).all Char.isDigit then
        afTryJ s (k + 1) (afRepsCount (s.drop (k + 1)))
      else none)
      (fun _ => afTryK s k)

/-- Length of the maximal run of class characters at the head. -/
def countStar (cls : Char → Bool) : List Char → Nat
  | [] => 0
  | c :: t => if cls c then countStar cls t + 1 else 0

/-- Second alternative `[0-9]+(?:,[0-9]{2})?`: maximal digit run, then
optionally `,dd`. -/
def afAlt2At (s : List Char) : Option Nat :=
  let d := countStar Char.isDigit s
  if d == 0 then none
  else if commaDD (s.drop d) then some (d + 3) else some d

/-- Match the filename-amount pattern at the current position. -/
def amtFileMatchAt (s : List Char) : Option String :=
  match orElseO (afTryK s 3) (fun _ => afAlt2At s) with
  | some n => some ⟨s.take n⟩
  | none => none

/-- `re.search` driver: try the position matcher at every position, left
to right; the first position with a match wins. -/
def scanFirst (f : List Char → Option String) : List Char → Option String
  | [] => f []
  | c :: t => orElseO (f (c :: t)) (fun _ => scanFirst f t)

/-- `_amount_from_filename`. -/
def amount_from_filename (name : String) : Option ℚ :=
  match scanFirst amtFileMatchAt name.data with
  | some g => normalize_amount g
  | none => none

/-! ## `_clean_iban`, `_iban_to_int_string`, `_is_valid_iban` (lines 114–142) -/

/-- `_clean_iban` on a present value: `re.sub(r"\s+", "", raw)`. -/
def clean_iban (s : String) : String := ⟨s.data.filter (fun c => !pyIsSpace c)⟩

/-- `_iban_to_int_string`: keep digits, replace any other character `c`
by the decimal notation of `ord(c) - 55`. -/
def iban_to_int_string (cs : List Char) : List Char :=
  cs.flatMap (fun c => if c.isDigit then [c] else (toString ((c.toNat : ℤ) - 55)).data)

/-- The digit-by-digit remainder loop of `_is_valid_iban`:
`remainder = (remainder * 10 + int(digit)) % 97` over the numeral. -/
def mod97Run (ds : List Char) : Nat :=
  ds.foldl (fun r c => (r * 10 + digitVal c) % 97) 0

/-- Value of a decimal numeral given as a character list. -/
def natVal (ds : List Char) : Nat :=
  ds.foldl (fun a c => a * 10 + digitVal c) 0

/-- `str.isalpha` (ASCII): non-empty and all letters. -/
def pyIsAlphaStr (l : List Char) : Bool := !l.isEmpty && l.all (fun c => c.isAlpha)

/-- `str.isalnum` (ASCII): non-empty and all letters or digits. -/
def pyIsAlnumStr (l : List Char) : Bool := !l.isEmpty && l.all (fun c => c.isAlpha || c.isDigit)

/-- `_is_valid_iban`. -/
def is_valid_iban (iban : String) : Bool :=
  let cs := iban.data
  if cs.length < 15 ∨ 34 < cs.length then false
  else if !pyIsAlphaStr (cs.take 2) then false
  else if !pyIsAlnumStr (cs.drop 2) then false
  else mod97Run (iban_to_int_string (cs.drop 4 ++ cs.take 4)) == 1

/-! ## `_select_iban` (lines 145–151)

`re.findall(r"\b([A-Z]{2}[0-9A-Z\s]{13,34})\b", text.upper())`: scan
left to right; at a match continue scanning after its end.  At one
position: a word boundary (previous character not a word character,
since the first matched character is a letter), two `A-Z` letters, then
a greedy 13–34-long run of `[0-9A-Z\s]` whose largest length admitting
a trailing word boundary wins. -/

/-- Regex word characters `\w` (ASCII). -/
def isWordCh (c : Char) : Bool := c.isAlpha || c.isDigit || c == '_'

/-- The class `[A-Z]`. -/
def isUpperAZ (c : Char) : Bool := 'A' ≤ c && c ≤ 'Z'

/-- The class `[0-9A-Z\s]`. -/
def ibanCls (c : Char) : Bool := c.isDigit || isUpperAZ c || pyIsSpace c

/-- Word boundary between positions `n-1` and `n` of the local slice. -/
def boundaryAfter (s : List Char) (n : Nat) : Bool :=
  (match s[n - 1]? with | some c => isWordCh c | none => false)
    != (match s[n]? with | some c => isWordCh c | none => false)

/-- Largest `k` with `13 ≤ k ≤ kmax` satisfying the predicate (greedy
`{13,34}` with backtracking on the trailing boundary). -/
def findK (pred : Nat → Bool) : Nat → Option Nat
  | 0 => none
  | k + 1 =>
    if k + 1 < 13 then none
    else if pred (k + 1) then some (k + 1)
    else findK pred k

/-- Match the IBAN pattern at the current position; returns the matched
length.  `prevWord` tells whether the character before this position is
a word character. -/
def ibanMatchAt (prevWord : Bool) (s : List Char) : Option Nat :=
  match s with
  | a :: b :: rest =>
    if !prevWord && isUpperAZ a && isUpperAZ b then
      match findK (fun k => boundaryAfter s (2 + k)) (min (countStar ibanCls rest) 34) with
      | some k => some (2 + k)
      | none => none
    else none
  | _ => none

/-- `re.findall` driver for the IBAN pattern (fuel = list length + 1,
always sufficient because every step consumes at least one character). -/
def ibanFindAllAux : Nat → Bool → List Char → List String
  | 0, _, _ => []
  | fuel + 1, prevWord, s =>
    match s with
    | [] => []
    | c :: t =>
      match ibanMatchAt prevWord (c :: t) with
      | some n =>
        (⟨(c :: t).take n⟩ : String) ::
          ibanFindAllAux fuel
            (match (c :: t)[n - 1]? with | some x => isWordCh x | none => false)
            ((c :: t).drop n)
      | none => ibanFindAllAux fuel (isWordCh c) t

/-- All IBAN-shaped candidates of `text.upper()`, in scan order. -/
def ibanFindAll (text : String) : List String :=
  ibanFindAllAux ((pyUpper text).data.length + 1) false (pyUpper text).data

/-- The `for match in findall: ...` loop of `_select_iban`. -/
def selectIbanLoop : List String → Option String
  | [] => none
  | m :: rest =>
    let candidate := clean_iban m
    if !(candidate == "") && is_valid_iban candidate then some candidate
    else selectIbanLoop rest

/-- `_select_iban`. -/
def select_iban (text : String) : Option String := selectIbanLoop (ibanFindAll text)

/-! ## `_select_bic` (lines 154–164) -/

/-- The class `[A-Z0-9]`. -/
def bicAl (c : Char) : Bool := isUpperAZ c || c.isDigit

/-- Match `\b([A-Z]{6}[A-Z0-9]{2}([A-Z0-9]{3})?)\b` at the current
position (greedy optional tail tried first). -/
def bicMatchAt (prevWord : Bool) (s : List Char) : Option Nat :=
  if !prevWord && (s.take 6).length == 6 && (s.take 6).all isUpperAZ
      && ((s.drop 6).take 2).length == 2 && ((s.drop 6).take 2).all bicAl then
    if ((s.drop 8).take 3).length == 3 && ((s.drop 8).take 3).all bicAl
        && boundaryAfter s 11 then
      some 11
    else if boundaryAfter s 8 then some 8
    else none
  else none

/-- `re.findall` driver for the BIC pattern. -/
def bicFindAllAux : Nat → Bool → List Char → List String
  | 0, _, _ => []
  | fuel + 1, prevWord, s =>
    match s with
    | [] => []
    | c :: t =>
      match bicMatchAt prevWord (c :: t) with
      | some n =>
        (⟨(c :: t).take n⟩ : String) ::
          bicFindAllAux fuel
            (match (c :: t)[n - 1]? with | some x => isWordCh x | none => false)
            ((c :: t).drop n)
      | none => bicFindAllAux fuel (isWordCh c) t

/-- All BIC-shaped candidates of `text.upper()`, in scan order. -/
def bicFindAll (text : String) : List String :=
  bicFindAllAux ((pyUpper text).data.length + 1) false (pyUpper text).data

/-- The loop of `_select_bic`: skip the denylist, skip lengths other
than 8/11, return the first survivor. -/
def selectBicLoop : List String → Option String
  | [] => none
  | m :: rest =>
    if m == "DESCRIPTION" || m == "SECURITY" then selectBicLoop rest
    else if !(m.length == 8 || m.length == 11) then selectBicLoop rest
    else some m

/-- `_select_bic`. -/
def select_bic (text : String) : Option String := selectBicLoop (bicFindAll text)

/-! ## The three field patterns of `_parse_fields` (lines 201–212)

Each pattern is `(?:lab1|lab2|...)\s*[:#]?\s*(group)` with
`re.IGNORECASE`.  `pattern.search` semantics: positions left to right;
at a position the label alternatives in written order, each alternative
being tried together with the separator and the capturing group (a
failing group backtracks into the next alternative).  Within one
alternative matching is deterministic: every greedy star here is over a
class disjoint from the token that follows it, and skipping the
optional `.` / `[:#]` character can never help because the group
classes contain neither `.` nor `:` nor `#`. -/

/-- Case-insensitive literal (pattern given in lower case); returns the
rest on success. -/
def litCI : List Char → List Char → Option (List Char)
  | [], s => some s
  | _ :: _, [] => none
  | c :: cs, x :: xs => if x.toLower == c then litCI cs xs else none

/-- Greedy class star: drop the maximal run. -/
def dropStar (cls : Char → Bool) : List Char → List Char
  | [] => []
  | c :: t => if cls c then dropStar cls t else c :: t

/-- Greedy optional single character. -/
def optCh (p : Char → Bool) : List Char → List Char
  | [] => []
  | c :: t => if p c then t else c :: t

/-- Greedy class star keeping the matched run (for captures). -/
def takeStar (cls : Char → Bool) : List Char → List Char × List Char
  | [] => ([], [])
  | c :: t =>
    if cls c then
      match takeStar cls t with
      | (m, r) => (c :: m, r)
    else ([], c :: t)

/-- Greedy class plus keeping the matched run. -/
def takePlus (cls : Char → Bool) : List Char → Option (List Char × List Char)
  | [] => none
  | c :: t =>
    if cls c then
      match takeStar cls t with
      | (m, r) => some (c :: m, r)
    else none

/-- The separator `\s*[:#]?\s*` between label and capturing group. -/
def sepSkip (s : List Char) : List Char :=
  dropStar pyIsSpace (optCh (fun c => c == ':' || c == '#') (dropStar pyIsSpace s))

/-- Label of shape `w1\s*w2` (case-insensitive). -/
def labSeq2 (w1 w2 : String) (s : List Char) : Option (List Char) :=
  (litCI w1.data s).bind (fun r => litCI w2.data (dropStar pyIsSpace r))

/-- Append an optional literal dot `\.?` to a label. -/
def labOptDot (f : List Char → Option (List Char)) (s : List Char) : Option (List Char) :=
  (f s).map (optCh (fun c => c == '.'))

/-- One alternative: label, separator, capturing group. -/
def altField (label : List Char → Option (List Char)) (grp : List Char → Option String)
    (s : List Char) : Option String :=
  (label s).bind (fun r => grp (sepSkip r))

/-- Try the alternatives of one pattern in written order at a fixed
position. -/
def tryAlts : List (List Char → Option String) → List Char → Option String
  | [], _ => none
  | f :: fs, s => orElseO (f s) (fun _ => tryAlts fs s)

/-- The character class of the invoice-number group (letters, digits,
hyphen, slash) under `re.IGNORECASE`. -/
def invNumCls (c : Char) : Bool := c.isAlpha || c.isDigit || c == '-' || c == '/'

/-- Capturing group of the invoice-number pattern: one or more
characters of `invNumCls`. -/
def grpInvNum (s : List Char) : Option String :=
  (takePlus invNumCls s).map (fun pr => (⟨pr.1⟩ : String))

/-- The label alternatives of the invoice-number pattern, in the order
written in the source regex. -/
def invNumAlts : List (List Char → Option String) :=
  [ altField (labSeq2 "invoice" "number") grpInvNum
  , altField (labOptDot (labSeq2 "invoice" "no")) grpInvNum
  , altField (labOptDot (labSeq2 "inv." "no")) grpInvNum
  , altField (labOptDot (labSeq2 "facture" "no")) grpInvNum
  , altField (litCI "rechnungsnummer".data) grpInvNum
  , altField (labOptDot (fun s =>
      (litCI "rechnung".data s).bind (fun r =>
        litCI "nr".data (dropStar (fun c => c == '-' || pyIsSpace c) r)))) grpInvNum
  , altField (litCI "belegnummer".data) grpInvNum
  , altField (litCI "vorgangsnummer".data) grpInvNum ]

/-- The invoice-number pattern at one position. -/
def matchInvNumAt (s : List Char) : Option String := tryAlts invNumAlts s

/-- Exactly `n` digits (what follows is unconstrained). -/
def takeDigitsN : Nat → List Char → Option (List Char × List Char)
  | 0, s => some ([], s)
  | _ + 1, [] => none
  | n + 1, c :: t =>
    if c.isDigit then (takeDigitsN n t).map (fun pr => (c :: pr.1, pr.2)) else none

/-- A date shape `d{a} sep d{b} sep d{cc}`. -/
def dShape (a : Nat) (sep1 : Char → Bool) (b : Nat) (sep2 : Char → Bool) (cc : Nat)
    (s : List Char) : Option String :=
  (takeDigitsN a s).bind (fun p1 =>
    match p1.2 with
    | x :: r2 =>
      if sep1 x then
        (takeDigitsN b r2).bind (fun p2 =>
          match p2.2 with
          | y :: r4 =>
            if sep2 y then
              (takeDigitsN cc r4).map (fun p3 => (⟨p1.1 ++ x :: p2.1 ++ y :: p3.1⟩ : String))
            else none
          | [] => none)
      else none
    | [] => none)

/-- The date separator class: hyphen or slash. -/
def sepDash (c : Char) : Bool := c == '-' || c == '/'

/-- A literal dot. -/
def dotCh (c : Char) : Bool := c == '.'

/-- Capturing group of the date pattern: the three date shapes as
alternatives, in written order. -/
def grpDate (s : List Char) : Option String :=
  orElseO (dShape 4 sepDash 2 sepDash 2 s) (fun _ =>
    orElseO (dShape 2 sepDash 2 sepDash 4 s) (fun _ =>
      dShape 2 dotCh 2 dotCh 4 s))

/-- The label alternatives of the date pattern. -/
def dateAlts : List (List Char → Option String) :=
  [ altField (labSeq2 "invoice" "date") grpDate
  , altField (litCI "date".data) grpDate
  , altField (litCI "rechnungsdatum".data) grpDate ]

/-- The invoice-date pattern at one position. -/
def matchDateAt (s : List Char) : Option String := tryAlts dateAlts s

/-- The class `[0-9\s.,]`. -/
def amountCls (c : Char) : Bool := c.isDigit || pyIsSpace c || c == '.' || c == ','

/-- Capturing group `([0-9][0-9\s.,]*)` of the amount pattern. -/
def grpAmount : List Char → Option String
  | [] => none
  | c :: t =>
    if c.isDigit then
      match takeStar amountCls t with
      | (m, _) => some (⟨c :: m⟩ : String)
    else none

/-- The label alternatives of the amount pattern. -/
def amountAlts : List (List Char → Option String) :=
  [ altField (labSeq2 "total" "amount") grpAmount
  , altField (labSeq2 "amount" "due") grpAmount
  , altField (litCI "total".data) grpAmount
  , altField (litCI "gesamtbetrag".data) grpAmount
  , altField (litCI "rechnungsbetrag".data) grpAmount
  , altField (labSeq2 "zu" "zahlen") grpAmount
  , altField (litCI "summe".data) grpAmount ]

/-- The amount pattern at one position. -/
def matchAmountAt (s : List Char) : Option String := tryAlts amountAlts s

/-- `_first_match(pattern, text)` (lines 85–89): `pattern.search`, then
`match.group(1).strip()`. -/
def first_match (f : List Char → Option String) (text : String) : Option String :=
  match scanFirst f text.data with
  | some g => some (pyStripStr g)
  | none => none

/-- The invoice-number extractor of `_parse_fields`. -/
def firstMatchInvNum (text : String) : Option String := first_match matchInvNumAt text

/-- The invoice-date extractor of `_parse_fields`. -/
def firstMatchDate (text : String) : Option String := first_match matchDateAt text

/-- The amount extractor of `_parse_fields`. -/
def firstMatchAmount (text : String) : Option String := first_match matchAmountAt text

/-- Modelled from the spec (§4.2): the reading in which the label
alternatives are a prioritized list of separate patterns, each searched
over the whole text one after another, the first pattern with any match
winning.  Serves as the spec-side definition of the refinement claim
about the extractors; compare with `firstMatchInvNum`. -/
def specFirstPatternInvNum (text : String) : Option String :=
  match (invNumAlts.filterMap (fun f => scanFirst f text.data)).head? with
  | some g => some (pyStripStr g)
  | none => none

/-- Leftmost-position characterization of `re.search`: the first text
position at which the combined pattern matches wins. -/
def leftmostCapture (f : List Char → Option String) (s : List Char) : Option String :=
  ((List.range (s.length + 1)).filterMap (fun i => f (s.drop i))).head?

/-! ## `_suggested_action` (lines 174–195) -/

/-- `_suggested_action`.  The source first forms `set(parse_errors)`;
only membership and prefix tests are performed on it, so the list with
list membership is an exact model. -/
def suggested_action (parse_errors : List String) : String :=
  let errors := parse_errors
  let actions : List String :=
    (if errors.contains "iban_missing" || errors.contains "iban_missing_or_invalid" then
      ["Fill IBAN"] else [])
    ++ (if errors.contains "total_amount_missing" || errors.contains "total_amount_invalid" then
      ["Fill amount"] else [])
    ++ (if errors.contains "invoice_number_missing" then ["Fill invoice number"] else [])
    ++ (if errors.contains "invoice_date_missing" then ["Fill invoice date"] else [])
    ++ (if errors.any (fun e => pyStartsWith e "pdf_read_error") then ["Check PDF file"] else [])
    ++ (if errors.any (fun e => pyStartsWith e "ocr_error") then ["Review scan quality"] else [])
    ++ (if errors.any (fun e => pyStartsWith e "unsupported_format") then ["Convert to PDF"] else [])
    ++ (if errors.any (fun e => pyStartsWith e "non_pdf_evidence") then ["Provide PDF version"] else [])
  let actions := if actions = [] then ["Review evidence manually"] else actions
  String.intercalate ", " actions

/-! ## Data model and pipeline (lines 17–52, 198–434) -/

/-- The extracted-fields dictionary passed from `_parse_fields` to
`_build_record`. -/
structure Fields where
  invoice_number : Option String
  invoice_date : Option String
  total_amount : Option ℚ
  currency : Option String
  iban : Option String
  bic : Option String
deriving DecidableEq

/-- A `pathlib.Path` as used by the engine: its string form and its
final component. -/
structure PyPath where
  path : String
  name : String
deriving DecidableEq

/-- The `EvidenceRecord` dataclass. -/
structure EvidenceRecord where
  file_path : String
  file_name : String
  sha256 : String
  evidence_type : String
  extraction_method : String
  text_preview : String
  invoice_number : Option String
  invoice_date : Option String
  total_amount : Option ℚ
  currency : Option String
  iban : Option String
  bic : Option String
  status : String
  payment_ready : Bool
  parse_errors : List String
deriving DecidableEq

/-- The I/O collaborators (out of scope per the spec, §1/§6): PDF text
layer, OCR over PDF pages, OCR over an image, and the file hash.  An
`Except.error detail` models the callee raising an exception whose
string form is `detail`; the hash is a total oracle. -/
structure Env where
  extractPdfText : PyPath → Except String String
  ocrPdf : PyPath → Except String String
  ocrImage : PyPath → Except String String
  fileSha : PyPath → String

/-- Index of the last dot of the name, as `str.rfind('.')`. -/
def rfindAux : List Char → Nat → Option Nat → Option Nat
  | [], _, acc => acc
  | c :: t, i, acc => rfindAux t (i + 1) (if c == '.' then some i else acc)

/-- `Path.suffix`: the extension of the final component, empty for
hidden files and names without an interior dot. -/
def pathSuffix (p : PyPath) : String :=
  let cs := p.name.data
  match rfindAux cs 0 none with
  | some i => if 0 < i ∧ i < cs.length - 1 then (⟨cs.drop i⟩ : String) else ""
  | none => ""

/-- `text[:1200]`. -/
def takeChars (n : Nat) (s : String) : String := ⟨s.data.take n⟩

/-- `bool(total_amount and total_amount > 0 and iban and currency)`,
with Python truthiness (`None`/`0.0`/`""` falsy). -/
def pyPaymentReady (amt : Option ℚ) (iban currency : Option String) : Bool :=
  (match amt with
   | none => false
   | some a => if a = 0 then false else decide (0 < a))
  && pyTruthy iban && pyTruthy currency

/-- `_build_record` (lines 260–291). -/
def build_record (env : Env) (p : PyPath) (evidence_type extraction_method : String)
    (text : String) (fields : Fields) (parse_errors : List String) : EvidenceRecord :=
  let payment_ready := pyPaymentReady fields.total_amount fields.iban fields.currency
  let status := if payment_ready && pyTruthy fields.invoice_number then "ok" else "needs_review"
  { file_path := p.path
  , file_name := p.name
  , sha256 := env.fileSha p
  , evidence_type := evidence_type
  , extraction_method := extraction_method
  , text_preview := takeChars 1200 text
  , invoice_number := fields.invoice_number
  , invoice_date := fields.invoice_date
  , total_amount := fields.total_amount
  , currency := fields.currency
  , iban := fields.iban
  , bic := fields.bic
  , status := status
  , payment_ready := payment_ready
  , parse_errors := parse_errors }

/-- The amount block of `_parse_fields` (lines 226–236): body match
first, filename fallback only when the body produced nothing. -/
def amountResolve (raw_amount : Option String) (name : String) : Option ℚ × List String :=
  if pyTruthy raw_amount then
    let ta := match raw_amount with
      | some r => normalize_amount r
      | none => none
    (ta, if ta = none then ["total_amount_invalid"] else [])
  else
    let ta := amount_from_filename name
    (ta, if ta = none then ["total_amount_missing"] else ["total_amount_from_filename"])

/-- `_parse_fields` (lines 198–257). -/
def parse_fields (text : String) (p : PyPath) : Fields × List String :=
  let invoice_number := firstMatchInvNum text
  let invoice_date := firstMatchDate text
  let raw_amount := firstMatchAmount text
  let currency : Option String := some "EUR"
  let iban := select_iban text
  let e1 : List String := if iban = none then ["iban_missing_or_invalid"] else []
  let bic := select_bic text
  match amountResolve raw_amount p.name with
  | (total_amount, eAmt) =>
    let e2 := e1 ++ eAmt
    let e3 := e2 ++ (if invoice_number = none then ["invoice_number_missing"] else [])
    let e4 := e3 ++ (if invoice_date = none then ["invoice_date_missing"] else [])
    let e5 := e4 ++ (match total_amount with
      | some a => if a ≤ 0 then ["total_amount_non_positive"] else []
      | none => [])
    ({ invoice_number := invoice_number, invoice_date := invoice_date
     , total_amount := total_amount, currency := currency, iban := iban, bic := bic }, e5)

/-- The literal all-absent fields dictionary of the failure branches
(currency hardcoded to "EUR"). -/
def errorFields : Fields :=
  { invoice_number := none, invoice_date := none, total_amount := none
  , currency := some "EUR", iban := none, bic := none }

/-- `parse_pdf` (lines 294–347). -/
def parse_pdf (env : Env) (p : PyPath) : EvidenceRecord :=
  match env.extractPdfText p with
  | .error exc =>
    build_record env p "pdf_text" "pdf_text" "" errorFields ["pdf_read_error:" ++ exc]
  | .ok text =>
    if (pyStripStr text).length < 40 then
      match env.ocrPdf p with
      | .error exc =>
        match parse_fields text p with
        | (fields, errors) =>
          build_record env p "pdf_scan" "pdf_text" text fields (errors ++ ["ocr_error:" ++ exc])
      | .ok ocrText =>
        match parse_fields ocrText p with
        | (fields, errors) => build_record env p "pdf_scan" "ocr" ocrText fields errors
    else
      match parse_fields text p with
      | (fields, errors) => build_record env p "pdf_text" "pdf_text" text fields errors

/-- `parse_image` (lines 350–378). -/
def parse_image (env : Env) (p : PyPath) : EvidenceRecord :=
  match env.ocrImage p with
  | .error exc => build_record env p "image" "ocr" "" errorFields ["ocr_error:" ++ exc]
  | .ok text =>
    match parse_fields text p with
    | (fields, errors) => build_record env p "image" "ocr" text fields errors

/-- `parse_xml` (lines 381–396). -/
def parse_xml (env : Env) (p : PyPath) : EvidenceRecord :=
  build_record env p "xml" "xml" "" errorFields ["xml_parsing_not_implemented"]

/-- `detect_and_parse` (lines 399–422). -/
def detect_and_parse (env : Env) (p : PyPath) : EvidenceRecord :=
  let suffix := pyLower (pathSuffix p)
  if suffix = ".pdf" then parse_pdf env p
  else if suffix = ".png" ∨ suffix = ".jpg" ∨ suffix = ".jpeg" then parse_image env p
  else if suffix = ".xml" then parse_xml env p
  else
    build_record env p "unknown" "unknown" "" errorFields
      ["unsupported_format:" ++ (if suffix = "" then "unknown" else suffix)]

/-- The append loop of `parse_invoice_files`. -/
def parseFilesAux (env : Env) (acc : List EvidenceRecord) : List PyPath → List EvidenceRecord
  | [] => acc
  | p :: rest => parseFilesAux env (acc ++ [detect_and_parse env p]) rest

/-- `parse_invoice_files` (lines 430–434). -/
def parse_invoice_files (env : Env) (paths : List PyPath) : List EvidenceRecord :=
  parseFilesAux env [] paths

/-! ## Helper lemmas -/

/-- Two strings differ when a (nonempty-)prefixed one starts with a
different character. -/
theorem append_ne_of_head {c d : Char} {lp lt : List Char} (pre suf t : String)
    (hpre : pre.data = c :: lp) (ht : t.data = d :: lt) (hcd : c ≠ d) : pre ++ suf ≠ t := by
  intro h
  have hdata := congrArg String.data h
  rw [String.data_append, hpre, ht, List.cons_append] at hdata
  exact hcd (List.head_eq_of_cons_eq hdata)

/-- The operational `re.search` scan equals the leftmost-position
characterization. -/
theorem scanFirst_eq_leftmost (f : List Char → Option String) :
    ∀ s : List Char, scanFirst f s = leftmostCapture f s := by
  intro s
  induction s with
  | nil =>
    rw [scanFirst, leftmostCapture]
    cases h : f [] <;> simp [h, List.drop_nil] <;> rfl
  | cons c t ih =>
    rw [scanFirst, leftmostCapture]
    have hr : List.range ((c :: t).length + 1)
        = 0 :: (List.range (t.length + 1)).map Nat.succ := by
      rw [List.length_cons]
      exact List.range_succ_eq_map (t.length + 1)
    rw [hr, List.filterMap_cons]
    cases h : f (c :: t) with
    | some v => simp [orElseO, h, List.drop_zero]
    | none =>
      simp only [List.drop_zero, h, orElseO]
      rw [ih, leftmostCapture, List.filterMap_map]
      have hfun : ((fun i => f (List.drop i (c :: t))) ∘ Nat.succ)
          = fun i => f (List.drop i t) := by
        funext i
        simp [Function.comp, List.drop_succ_cons]
      rw [hfun]

/-- The digit-by-digit remainder loop computes the remainder of the
concatenated decimal numeral. -/
theorem foldMod (ds : List Char) : ∀ r : Nat,
    ds.foldl (fun r c => (r * 10 + digitVal c) % 97) (r % 97)
      = (ds.foldl (fun a c => a * 10 + digitVal c) r) % 97 := by
  induction ds with
  | nil => intro r; simp
  | cons c t ih =>
    intro r
    simp only [List.foldl_cons]
    have h : (r % 97 * 10 + digitVal c) % 97 = (r * 10 + digitVal c) % 97 := by omega
    rw [h]
    exact ih (r * 10 + digitVal c)

/-- `mod97Run` is the value of the numeral modulo 97. -/
theorem mod97Run_eq_natVal (ds : List Char) : mod97Run ds = natVal ds % 97 := by
  have h := foldMod ds 0
  simpa [mod97Run, natVal] using h

/-- A checksum-accepted IBAN is a nonempty string. -/
theorem is_valid_iban_ne_empty {s : String} (h : is_valid_iban s = true) : s ≠ "" := by
  intro he
  subst he
  exact absurd h (by decide)

/-- The selection loop of `_select_iban` returns the first cleaned
candidate accepted by the validator. -/
theorem selectIbanLoop_eq_find : ∀ ms : List String,
    selectIbanLoop ms = (ms.map clean_iban).find? is_valid_iban := by
  intro ms
  induction ms with
  | nil => rfl
  | cons m rest ih =>
    rw [selectIbanLoop, List.map_cons, List.find?_cons]
    cases hv : is_valid_iban (clean_iban m) with
    | true =>
      have hne : clean_iban m ≠ "" := is_valid_iban_ne_empty hv
      have : (clean_iban m == "") = false := beq_eq_false_iff_ne.mpr hne
      simp [this, hv]
    | false => simp [hv, ih]

/-- The IBAN selected by `_select_iban` passed the validator. -/
theorem select_iban_valid {text : String} {s : String}
    (h : select_iban text = some s) : is_valid_iban s = true := by
  rw [select_iban, selectIbanLoop_eq_find] at h
  exact List.find?_some h

/-- An IBAN selected by `_select_iban` is nonempty. -/
theorem select_iban_ne_empty {text : String} {s : String}
    (h : select_iban text = some s) : s ≠ "" :=
  is_valid_iban_ne_empty (select_iban_valid h)

/-- `pyPaymentReady` as a proposition, given that a present IBAN and a
present currency are nonempty strings. -/
theorem pyPaymentReady_iff (amt : Option ℚ) (ib cur : Option String)
    (hib : ∀ s, ib = some s → s ≠ "") (hcur : ∀ s, cur = some s → s ≠ "") :
    pyPaymentReady amt ib cur = true ↔
      (∃ a : ℚ, amt = some a ∧ 0 < a) ∧ ib.isSome = true ∧ cur.isSome = true := by
  have htr : ∀ (o : Option String), (∀ s, o = some s → s ≠ "") →
      (pyTruthy o = o.isSome) := by
    intro o ho
    cases o with
    | none => rfl
    | some s =>
      have := ho s rfl
      simp [pyTruthy, this]
  rw [pyPaymentReady.eq_def, htr ib hib, htr cur hcur]
  cases amt with
  | none => simp
  | some a =>
    by_cases ha : a = 0
    · subst ha
      simp
    · simp only [ha, if_false, Bool.and_eq_true, decide_eq_true_eq, Option.some.injEq]
      constructor
      · rintro ⟨⟨hpos, h1⟩, h2⟩
        exact ⟨⟨a, rfl, hpos⟩, h1, h2⟩
      · rintro ⟨⟨b, hb, hpos⟩, h1, h2⟩
        subst hb
        exact ⟨⟨hpos, h1⟩, h2⟩

/-- The fields produced by `_parse_fields`, componentwise. -/
theorem parse_fields_fst (text : String) (p : PyPath) :
    (parse_fields text p).1 =
      { invoice_number := firstMatchInvNum text
      , invoice_date := firstMatchDate text
      , total_amount := (amountResolve (firstMatchAmount text) p.name).1
      , currency := some "EUR"
      , iban := select_iban text
      , bic := select_bic text } := by
  rw [parse_fields]

/-- Every error code appended by the amount block. -/
theorem amountResolve_mem {raw : Option String} {name : String} {x : String}
    (h : x ∈ (amountResolve raw name).2) :
    x = "total_amount_invalid" ∨ x = "total_amount_missing"
      ∨ x = "total_amount_from_filename" := by
  rw [amountResolve.eq_def] at h
  split at h
  · simp only [] at h
    split at h <;> simp_all
  · simp only [] at h
    split at h <;> simp_all

/-- Every error code appended by `_parse_fields` belongs to the
field-level taxonomy. -/
theorem parse_fields_errors_mem {text : String} {p : PyPath} {x : String}
    (h : x ∈ (parse_fields text p).2) :
    x = "iban_missing_or_invalid" ∨ x = "total_amount_invalid"
      ∨ x = "total_amount_missing" ∨ x = "total_amount_from_filename"
      ∨ x = "invoice_number_missing" ∨ x = "invoice_date_missing"
      ∨ x = "total_amount_non_positive" := by
  rw [parse_fields] at h
  rcases ha : amountResolve (firstMatchAmount text) p.name with ⟨ta, ea⟩
  rw [ha] at h
  simp only [List.mem_append] at h
  rcases h with ((((h | h) | h) | h) | h)
  · split at h <;> simp_all
  · have hm : x ∈ (amountResolve (firstMatchAmount text) p.name).2 := by
      rw [ha]
      exact h
    have := amountResolve_mem hm
    tauto
  · split at h <;> simp_all
  · split at h <;> simp_all
  · rcases ta with _ | a
    · simp at h
    · simp only at h
      split at h <;> simp_all

/-- `currency_missing` is never emitted by `_parse_fields`. -/
theorem currency_missing_not_parse_fields (text : String) (p : PyPath) :
    "currency_missing" ∉ (parse_fields text p).2 := by
  intro h
  rcases parse_fields_errors_mem h with h | h | h | h | h | h | h <;> exact absurd h (by decide)

/-- The append loop builds the map of `detect_and_parse` over the
inputs. -/
theorem parseFilesAux_eq (env : Env) :
    ∀ (paths : List PyPath) (acc : List EvidenceRecord),
      parseFilesAux env acc paths = acc ++ paths.map (detect_and_parse env) := by
  intro paths
  induction paths with
  | nil => intro acc; simp [parseFilesAux]
  | cons p rest ih =>
    intro acc
    rw [parseFilesAux, ih, List.map_cons]
    simp

/-- Record-level consequences of `_build_record` when the currency is
the constant `"EUR"`, a present IBAN is nonempty, and the error list
avoids `currency_missing`. -/
theorem build_record_invariants (env : Env) (p : PyPath) (evt mth t : String)
    (fields : Fields) (errs : List String)
    (hcur : fields.currency = some "EUR")
    (hib : ∀ s, fields.iban = some s → s ≠ "")
    (hmem : "currency_missing" ∉ errs) :
    (build_record env p evt mth t fields errs).currency = some "EUR" ∧
    "currency_missing" ∉ (build_record env p evt mth t fields errs).parse_errors ∧
    ((build_record env p evt mth t fields errs).payment_ready = true ↔
      (∃ a : ℚ, (build_record env p evt mth t fields errs).total_amount = some a ∧ 0 < a) ∧
      (build_record env p evt mth t fields errs).iban.isSome = true) := by
  refine ⟨hcur, hmem, ?_⟩
  show pyPaymentReady fields.total_amount fields.iban fields.currency = true ↔
    (∃ a : ℚ, fields.total_amount = some a ∧ 0 < a) ∧ fields.iban.isSome = true
  have hcur' : ∀ s, fields.currency = some s → s ≠ "" := by
    intro s hs
    rw [hcur] at hs
    injection hs with h
    subst h
    decide
  rw [pyPaymentReady_iff fields.total_amount fields.iban fields.currency hib hcur']
  rw [hcur]
  simp

/-- The amount block with no usable body match takes the filename
fallback. -/
theorem amountResolve_of_not_truthy (raw : Option String) (name : String)
    (h : pyTruthy raw = false) :
    amountResolve raw name = (amount_from_filename name,
      if amount_from_filename name = none then ["total_amount_missing"]
      else ["total_amount_from_filename"]) := by
  rw [amountResolve.eq_def, if_neg (by rw [h]; exact Bool.false_ne_true)]

/-- The amount block with a usable body match normalizes it and never
consults the filename. -/
theorem amountResolve_of_truthy (r : String) (name : String) (h : r ≠ "") :
    amountResolve (some r) name = (normalize_amount r,
      if normalize_amount r = none then ["total_amount_invalid"] else []) := by
  rw [amountResolve.eq_def, if_pos (by simp [pyTruthy, h])]

/-- The error list of `_parse_fields`, as the concatenation of its five
blocks in source order. -/
theorem parse_fields_snd_eq (text : String) (p : PyPath) :
    (parse_fields text p).2 =
      (if select_iban text = none then ["iban_missing_or_invalid"] else [])
      ++ (amountResolve (firstMatchAmount text) p.name).2
      ++ (if firstMatchInvNum text = none then ["invoice_number_missing"] else [])
      ++ (if firstMatchDate text = none then ["invoice_date_missing"] else [])
      ++ (match (amountResolve (firstMatchAmount text) p.name).1 with
          | some a => if a ≤ 0 then ["total_amount_non_positive"] else []
          | none => []) := by
  rw [parse_fields]

/-- Membership in a conditional singleton. -/
theorem mem_ite_nil {x a : String} {c : Prop} [Decidable c] :
    x ∈ (if c then [a] else []) ↔ c ∧ x = a := by
  split <;> simp_all

/-- `str.isalpha` as a proposition. -/
theorem pyIsAlphaStr_iff (l : List Char) :
    pyIsAlphaStr l = true ↔ l ≠ [] ∧ ∀ c ∈ l, c.isAlpha = true := by
  simp [pyIsAlphaStr, List.all_eq_true, List.isEmpty_iff]

/-- `str.isalnum` as a proposition. -/
theorem pyIsAlnumStr_iff (l : List Char) :
    pyIsAlnumStr l = true ↔ l ≠ [] ∧ ∀ c ∈ l, (c.isAlpha || c.isDigit) = true := by
  simp [pyIsAlnumStr, List.all_eq_true, List.isEmpty_iff]

/-! ## Claims -/

/-- C1: for every record constructed by the classifier `_build_record`
(whose field inputs satisfy the pipeline invariants: a present IBAN
passed `_is_valid_iban`, a present currency is nonempty, a present
invoice number is nonempty), `payment_ready` is true iff the amount is
present and positive, the IBAN is present (and hence checksum-valid),
and the currency is present; `payment_ready` does not depend on the
invoice number; `status` is `"ok"` iff `payment_ready` holds and the
invoice number is present, and otherwise `"needs_review"`; in
particular a record without invoice number is `needs_review` even when
`payment_ready` is true. -/
theorem C1_payment_ready_status (env : Env) (p : PyPath) (evt mth text : String)
    (fields : Fields) (errs : List String)
    (hiban : ∀ s, fields.iban = some s → is_valid_iban s = true)
    (hcur : ∀ s, fields.currency = some s → s ≠ "")
    (hinv : fields.invoice_number ≠ some "") :
    ((build_record env p evt mth text fields errs).payment_ready = true ↔
      (∃ a : ℚ, fields.total_amount = some a ∧ 0 < a)
        ∧ fields.iban.isSome = true ∧ fields.currency.isSome = true) ∧
    (∀ n, (build_record env p evt mth text
        { fields with invoice_number := n } errs).payment_ready
      = (build_record env p evt mth text fields errs).payment_ready) ∧
    ((build_record env p evt mth text fields errs).status = "ok" ↔
      (build_record env p evt mth text fields errs).payment_ready = true
        ∧ fields.invoice_number.isSome = true) ∧
    ((build_record env p evt mth text fields errs).status = "ok"
      ∨ (build_record env p evt mth text fields errs).status = "needs_review") ∧
    (fields.invoice_number = none →
      (build_record env p evt mth text fields errs).status = "needs_review") := by
  have hib' : ∀ s, fields.iban = some s → s ≠ "" :=
    fun s hs => is_valid_iban_ne_empty (hiban s hs)
  have htr : pyTruthy fields.invoice_number = fields.invoice_number.isSome := by
    cases hn : fields.invoice_number with
    | none => rfl
    | some s =>
      have hs : s ≠ "" := by
        intro he
        exact hinv (by rw [hn, he])
      simp [pyTruthy, hs]
  have hst : (build_record env p evt mth text fields errs).status
      = (if pyPaymentReady fields.total_amount fields.iban fields.currency
            && fields.invoice_number.isSome then "ok" else "needs_review") := by
    show (if pyPaymentReady fields.total_amount fields.iban fields.currency
        && pyTruthy fields.invoice_number then "ok" else "needs_review") = _
    rw [htr]
  refine ⟨?_, ?_, ?_, ?_, ?_⟩
  · show pyPaymentReady fields.total_amount fields.iban fields.currency = true ↔ _
    rw [pyPaymentReady_iff fields.total_amount fields.iban fields.currency hib' hcur]
  · intro n
    rfl
  · rw [hst]
    have hprj : (build_record env p evt mth text fields errs).payment_ready
        = pyPaymentReady fields.total_amount fields.iban fields.currency := rfl
    rw [hprj]
    cases hc : (pyPaymentReady fields.total_amount fields.iban fields.currency
        && fields.invoice_number.isSome) with
    | true =>
      simp only [if_pos rfl]
      simp only [Bool.and_eq_true] at hc
      simp [hc]
    | false =>
      rw [if_neg (by simp)]
      constructor
      · intro habs
        exact absurd habs (by decide)
      · rintro ⟨h1, h2⟩
        have hand : (pyPaymentReady fields.total_amount fields.iban fields.currency
            && fields.invoice_number.isSome) = true := by rw [h1, h2]; rfl
        rw [hc] at hand
        exact absurd hand (by decide)
  · rw [hst]
    cases hc : (pyPaymentReady fields.total_amount fields.iban fields.currency
        && fields.invoice_number.isSome) <;> simp
  · intro hn
    rw [hst, hn]
    simp

/-- C1 witness: a concrete record with positive amount, valid IBAN and
currency but no invoice number is `payment_ready` yet `needs_review`. -/
theorem C1_payment_ready_status_witness :
    (build_record
        ⟨fun _ => Except.error "", fun _ => Except.error "", fun _ => Except.error "",
          fun _ => "h"⟩
        ⟨"a.pdf", "a.pdf"⟩ "pdf_text" "pdf_text" ""
        { invoice_number := none, invoice_date := none, total_amount := some 5
        , currency := some "EUR", iban := some "DE89370400440532013000", bic := none }
        []).payment_ready = true ∧
    (build_record
        ⟨fun _ => Except.error "", fun _ => Except.error "", fun _ => Except.error "",
          fun _ => "h"⟩
        ⟨"a.pdf", "a.pdf"⟩ "pdf_text" "pdf_text" ""
        { invoice_number := none, invoice_date := none, total_amount := some 5
        , currency := some "EUR", iban := some "DE89370400440532013000", bic := none }
        []).status = "needs_review" := by
  have h := C1_payment_ready_status
    ⟨fun _ => Except.error "", fun _ => Except.error "", fun _ => Except.error "",
      fun _ => "h"⟩
    ⟨"a.pdf", "a.pdf"⟩ "pdf_text" "pdf_text" ""
    { invoice_number := none, invoice_date := none, total_amount := some 5
    , currency := some "EUR", iban := some "DE89370400440532013000", bic := none }
    []
    (by intro s hs; injection hs with hh; subst hh; decide)
    (by intro s hs; injection hs with hh; subst hh; decide)
    (by decide)
  exact ⟨h.1.mpr ⟨⟨5, rfl, by norm_num⟩, rfl, rfl⟩, h.2.2.2.2 rfl⟩

/-- C2: `_is_valid_iban` accepts a candidate iff its length lies in
[15,34], its first two characters are alphabetic, the remainder is
alphanumeric, and the ISO 7064 value — first four characters moved to
the end, letters mapped via `ord(c) - 55`, digits kept, concatenated
into a decimal numeral — is ≡ 1 (mod 97); the digit-by-digit reduction
`remainder = (remainder*10 + digit) % 97` of the source computes
exactly this remainder.  And `_select_iban` returns the first candidate
in text-scan order whose whitespace-stripped form passes the validator,
or absent. -/
theorem C2_iban_validation_and_selection :
    (∀ s : String, is_valid_iban s = true ↔
      (15 ≤ s.data.length ∧ s.data.length ≤ 34
        ∧ (∀ c ∈ s.data.take 2, c.isAlpha = true)
        ∧ (∀ c ∈ s.data.drop 2, (c.isAlpha || c.isDigit) = true)
        ∧ natVal (iban_to_int_string (s.data.drop 4 ++ s.data.take 4)) % 97 = 1)) ∧
    (∀ text : String,
      select_iban text = ((ibanFindAll text).map clean_iban).find? is_valid_iban) := by
  constructor
  · intro s
    rw [is_valid_iban]
    by_cases h1 : s.data.length < 15 ∨ 34 < s.data.length
    · rw [if_pos h1]
      constructor
      · intro habs
        exact absurd habs (by decide)
      · rintro ⟨ha, hb, -⟩
        exfalso
        rcases h1 with h1 | h1 <;> omega
    · rw [if_neg h1]
      push_neg at h1
      have htk : (s.data.take 2).length = 2 := by
        rw [List.length_take]
        omega
      have htkne : s.data.take 2 ≠ [] := by
        intro hnil
        rw [hnil] at htk
        simp at htk
      have hdr : (s.data.drop 2).length = s.data.length - 2 := by
        rw [List.length_drop]
      have hdrne : s.data.drop 2 ≠ [] := by
        intro hnil
        have hlen0 : s.data.length - 2 = 0 := by
          have hc := congrArg List.length hnil
          rw [List.length_drop] at hc
          simpa using hc
        omega
      cases h2 : pyIsAlphaStr (s.data.take 2) with
      | false =>
        rw [if_pos (by decide)]
        constructor
        · intro habs
          exact absurd habs (by decide)
        · rintro ⟨-, -, hall, -, -⟩
          have := (pyIsAlphaStr_iff (s.data.take 2)).mpr ⟨htkne, hall⟩
          rw [h2] at this
          exact absurd this (by decide)
      | true =>
        rw [if_neg (by decide)]
        cases h3 : pyIsAlnumStr (s.data.drop 2) with
        | false =>
          rw [if_pos (by decide)]
          constructor
          · intro habs
            exact absurd habs (by decide)
          · rintro ⟨-, -, -, hall, -⟩
            have := (pyIsAlnumStr_iff (s.data.drop 2)).mpr ⟨hdrne, hall⟩
            rw [h3] at this
            exact absurd this (by decide)
        | true =>
          rw [if_neg (by decide)]
          rw [beq_iff_eq, mod97Run_eq_natVal]
          constructor
          · intro hmod
            exact ⟨h1.1, h1.2, ((pyIsAlphaStr_iff _).mp h2).2,
              ((pyIsAlnumStr_iff _).mp h3).2, hmod⟩
          · rintro ⟨-, -, -, -, hmod⟩
            exact hmod
  · intro text
    rw [select_iban]
    exact selectIbanLoop_eq_find (ibanFindAll text)

/-- C3 counterexample: contrary to the claim, `_normalize_amount` does
not fail on `"1234.56"`; with no comma present the dot is left in place
and `float("1234.56")` succeeds, so the result is `1234.56`, not
absent. -/
theorem C3_normalize_amount_counterexample :
    normalize_amount "1234.56" = some (1234.56 : ℚ) ∧
    normalize_amount "1234.56" ≠ none := by
  have hv : normalize_amount "1234.56" = some (1234.56 : ℚ) := by with_unfolding_all rfl
  refine ⟨hv, ?_⟩
  intro h
  rw [hv] at h
  exact absurd h (by simp)

/-- C3 amended: the amount normalizer strips spaces and no-break
spaces; when a comma is present it removes all dots and replaces the
comma with a dot before numeric conversion, and it returns absent on
any non-numeric residue; `normalize("1.234,56") = 1234.56`, and
`normalize("1234.56")` also succeeds with `1234.56` (with no comma the
dot is kept as the decimal separator — acceptance is not rejected). -/
theorem C3_normalize_amount_amended :
    normalize_amount "1.234,56" = some (1234.56 : ℚ) ∧
    normalize_amount "1234.56" = some (1234.56 : ℚ) ∧
    normalize_amount "1 234,56" = some (1234.56 : ℚ) ∧
    normalize_amount "1 234,56" = some (1234.56 : ℚ) ∧
    normalize_amount "12,3x" = none ∧
    normalize_amount "abc" = none := by
  refine ⟨by with_unfolding_all rfl, by with_unfolding_all rfl, by with_unfolding_all rfl,
    by with_unfolding_all rfl, by with_unfolding_all rfl, by with_unfolding_all rfl⟩

/-- C4: processing a list of input files yields exactly one record per
input, in input order (the engine is a total function — text
acquisition and hashing are total oracles in the model, every
exception of the collaborators is materialised as an `Except.error`
and caught, so nothing propagates to the caller); an input whose
lower-cased suffix is none of `.pdf`, `.png`, `.jpg`, `.jpeg`, `.xml`
produces a record, not a rejection, with the single error code
`unsupported_format:<suffix>` (the literal `unknown` standing in for an
empty suffix) and status `needs_review`. -/
theorem C4_one_record_per_file (env : Env) (paths : List PyPath) (p : PyPath) :
    parse_invoice_files env paths = paths.map (detect_and_parse env) ∧
    (parse_invoice_files env paths).length = paths.length ∧
    (pyLower (pathSuffix p) ≠ ".pdf" → pyLower (pathSuffix p) ≠ ".png" →
     pyLower (pathSuffix p) ≠ ".jpg" → pyLower (pathSuffix p) ≠ ".jpeg" →
     pyLower (pathSuffix p) ≠ ".xml" →
      (detect_and_parse env p).parse_errors
          = ["unsupported_format:"
              ++ (if pyLower (pathSuffix p) = "" then "unknown" else pyLower (pathSuffix p))] ∧
      (detect_and_parse env p).status = "needs_review" ∧
      (detect_and_parse env p).payment_ready = false) := by
  refine ⟨?_, ?_, ?_⟩
  · rw [parse_invoice_files, parseFilesAux_eq]
    simp
  · rw [parse_invoice_files, parseFilesAux_eq]
    simp
  · intro h1 h2 h3 h4 h5
    have hd : detect_and_parse env p
        = build_record env p "unknown" "unknown" "" errorFields
            ["unsupported_format:"
              ++ (if pyLower (pathSuffix p) = "" then "unknown" else pyLower (pathSuffix p))] := by
      simp only [detect_and_parse]
      rw [if_neg h1]
      rw [if_neg (by rintro (h | h | h); exacts [h2 h, h3 h, h4 h])]
      rw [if_neg h5]
    refine ⟨by rw [hd]; rfl, by rw [hd]; rfl, by rw [hd]; rfl⟩

/-- C4 witness: a `.docx` input produces a flagged `needs_review`
record rather than a rejection. -/
theorem C4_one_record_per_file_witness :
    (detect_and_parse
        ⟨fun _ => Except.error "", fun _ => Except.error "", fun _ => Except.error "",
          fun _ => "h"⟩ ⟨"a.docx", "a.docx"⟩).parse_errors
        = ["unsupported_format:.docx"] ∧
    (detect_and_parse
        ⟨fun _ => Except.error "", fun _ => Except.error "", fun _ => Except.error "",
          fun _ => "h"⟩ ⟨"a.docx", "a.docx"⟩).status = "needs_review" := by
  have h := (C4_one_record_per_file
    ⟨fun _ => Except.error "", fun _ => Except.error "", fun _ => Except.error "",
      fun _ => "h"⟩ [] ⟨"a.docx", "a.docx"⟩).2.2
    (by decide) (by decide) (by decide) (by decide) (by decide)
  refine ⟨?_, h.2.1⟩
  rw [h.1]
  rfl

/-- C5 amended: on a PDF read failure, and on an OCR failure for an
image, the engine emits a record whose extracted fields are all absent
except the constant currency `"EUR"`, with `parse_errors` exactly
`[pdf_read_error:<detail>]` resp. `[ocr_error:<detail>]`, payment_ready
false and status `needs_review`; on an OCR failure for a PDF whose
embedded text is short (stripped length < 40) the engine parses that
short text normally and appends `ocr_error:<detail>` to the resulting
record's errors (its status is then determined by the parsed fields,
not forced); in no case does the exception reach the caller. -/
theorem C5_acquisition_failure_amended (env : Env) (p : PyPath) (exc : String) :
    (env.extractPdfText p = Except.error exc →
      parse_pdf env p =
        { file_path := p.path, file_name := p.name, sha256 := env.fileSha p
        , evidence_type := "pdf_text", extraction_method := "pdf_text", text_preview := ""
        , invoice_number := none, invoice_date := none, total_amount := none
        , currency := some "EUR", iban := none, bic := none
        , status := "needs_review", payment_ready := false
        , parse_errors := ["pdf_read_error:" ++ exc] }) ∧
    (env.ocrImage p = Except.error exc →
      parse_image env p =
        { file_path := p.path, file_name := p.name, sha256 := env.fileSha p
        , evidence_type := "image", extraction_method := "ocr", text_preview := ""
        , invoice_number := none, invoice_date := none, total_amount := none
        , currency := some "EUR", iban := none, bic := none
        , status := "needs_review", payment_ready := false
        , parse_errors := ["ocr_error:" ++ exc] }) ∧
    (∀ text, env.extractPdfText p = Except.ok text → (pyStripStr text).length < 40 →
      env.ocrPdf p = Except.error exc →
      parse_pdf env p = build_record env p "pdf_scan" "pdf_text" text
        (parse_fields text p).1 ((parse_fields text p).2 ++ ["ocr_error:" ++ exc])) := by
  refine ⟨?_, ?_, ?_⟩
  · intro h
    rw [parse_pdf.eq_def, h]
    rfl
  · intro h
    rw [parse_image.eq_def, h]
    rfl
  · intro text hok hlen hocr
    rw [parse_pdf.eq_def, hok]
    simp only [if_pos hlen]
    rw [hocr]

/-- C5 counterexample: the failure record is not "all fields absent" —
its currency is the constant `"EUR"`; and an OCR failure over a
low-text PDF does not force `needs_review`: the short text plus the
filename amount fallback can still produce a fully valid record with
status `"ok"`, the `ocr_error` code merely appended. -/
theorem C5_acquisition_failure_counterexample :
    (parse_pdf
        ⟨fun _ => Except.error "corrupted xref", fun _ => Except.error "x",
          fun _ => Except.error "x", fun _ => "h"⟩
        ⟨"a.pdf", "a.pdf"⟩).currency = some "EUR" ∧
    (parse_pdf
        ⟨fun _ => Except.error "corrupted xref", fun _ => Except.error "x",
          fun _ => Except.error "x", fun _ => "h"⟩
        ⟨"a.pdf", "a.pdf"⟩).currency ≠ none ∧
    (parse_pdf
        ⟨fun _ => Except.ok "Inv.No:A DE89370400440532013000", fun _ => Except.error "boom",
          fun _ => Except.error "x", fun _ => "h"⟩
        ⟨"x5,00.pdf", "x5,00.pdf"⟩).status = "ok" ∧
    "ocr_error:boom" ∈ (parse_pdf
        ⟨fun _ => Except.ok "Inv.No:A DE89370400440532013000", fun _ => Except.error "boom",
          fun _ => Except.error "x", fun _ => "h"⟩
        ⟨"x5,00.pdf", "x5,00.pdf"⟩).parse_errors := by
  have herr : (parse_pdf
      ⟨fun _ => Except.ok "Inv.No:A DE89370400440532013000", fun _ => Except.error "boom",
        fun _ => Except.error "x", fun _ => "h"⟩
      ⟨"x5,00.pdf", "x5,00.pdf"⟩).parse_errors
      = ["total_amount_from_filename", "invoice_date_missing", "ocr_error:boom"] := by
    with_unfolding_all rfl
  have hcur : (parse_pdf
      ⟨fun _ => Except.error "corrupted xref", fun _ => Except.error "x",
        fun _ => Except.error "x", fun _ => "h"⟩
      ⟨"a.pdf", "a.pdf"⟩).currency = some "EUR" := rfl
  refine ⟨hcur, ?_, ?_, ?_⟩
  · rw [hcur]
    simp
  · with_unfolding_all rfl
  · rw [herr]
    simp

/-- C5 witness for the amended statement: the concrete
`"corrupted xref"` scenario. -/
theorem C5_acquisition_failure_witness :
    parse_pdf
        ⟨fun _ => Except.error "corrupted xref", fun _ => Except.error "x",
          fun _ => Except.error "x", fun _ => "h"⟩
        ⟨"a.pdf", "a.pdf"⟩ =
      { file_path := "a.pdf", file_name := "a.pdf", sha256 := "h"
      , evidence_type := "pdf_text", extraction_method := "pdf_text", text_preview := ""
      , invoice_number := none, invoice_date := none, total_amount := none
      , currency := some "EUR", iban := none, bic := none
      , status := "needs_review", payment_ready := false
      , parse_errors := ["pdf_read_error:corrupted xref"] } :=
  (C5_acquisition_failure_amended
    ⟨fun _ => Except.error "corrupted xref", fun _ => Except.error "x",
      fun _ => Except.error "x", fun _ => "h"⟩
    ⟨"a.pdf", "a.pdf"⟩ "corrupted xref").1 rfl

/-- C6 counterexample: the extractors are a single pattern whose
leftmost match in the text wins, not a prioritized list of label
patterns tried one after another: on
`"Belegnummer: A1 Invoice Number: B2"` the code extracts `"A1"`
(earlier position) while the first-pattern-wins reading extracts
`"B2"`; swapping the two labels makes the code return `"B2"`, so no
fixed pattern priority reproduces both outputs. -/
theorem C6_first_pattern_counterexample :
    firstMatchInvNum "Belegnummer: A1 Invoice Number: B2" = some "A1" ∧
    firstMatchInvNum "Invoice Number: B2 Belegnummer: A1" = some "B2" ∧
    specFirstPatternInvNum "Belegnummer: A1 Invoice Number: B2" = some "B2" ∧
    specFirstPatternInvNum "Belegnummer: A1 Invoice Number: B2"
      ≠ firstMatchInvNum "Belegnummer: A1 Invoice Number: B2" := by
  refine ⟨by decide, by decide, by decide, by decide⟩

/-- C6 amended: for each of invoice number, invoice date and amount a
single pattern (with label alternatives in fixed order) is searched
deterministically: the match at the leftmost matching text position
wins, the label alternatives breaking ties only at equal positions in
their written order; the extracted value is the first capturing group
of that match trimmed of surrounding whitespace; if no position
matches, the field is absent. -/
theorem C6_extractor_leftmost_amended (text : String) :
    firstMatchInvNum text = (leftmostCapture matchInvNumAt text.data).map pyStripStr ∧
    firstMatchDate text = (leftmostCapture matchDateAt text.data).map pyStripStr ∧
    firstMatchAmount text = (leftmostCapture matchAmountAt text.data).map pyStripStr := by
  refine ⟨?_, ?_, ?_⟩ <;>
    · first
      | rw [firstMatchInvNum, first_match, scanFirst_eq_leftmost]
      | rw [firstMatchDate, first_match, scanFirst_eq_leftmost]
      | rw [firstMatchAmount, first_match, scanFirst_eq_leftmost]
      cases leftmostCapture matchInvNumAt text.data <;>
        cases leftmostCapture matchDateAt text.data <;>
        cases leftmostCapture matchAmountAt text.data <;> rfl

/-- C7: when no amount-label pattern matches the body text, the amount
is recovered from the file name when possible, recording the
informational `total_amount_from_filename` (and neither
`total_amount_missing` nor `total_amount_invalid`); when the filename
recovery also fails, `total_amount_missing` is recorded and the amount
stays absent; when a body pattern does match but normalization fails,
`total_amount_invalid` is recorded and the filename fallback is not
consulted (the amount stays absent and no filename code appears). -/
theorem C7_amount_fallback (text : String) (p : PyPath) :
    (firstMatchAmount text = none →
      ((∀ a : ℚ, amount_from_filename p.name = some a →
        (parse_fields text p).1.total_amount = some a ∧
        "total_amount_from_filename" ∈ (parse_fields text p).2 ∧
        "total_amount_missing" ∉ (parse_fields text p).2 ∧
        "total_amount_invalid" ∉ (parse_fields text p).2) ∧
      (amount_from_filename p.name = none →
        (parse_fields text p).1.total_amount = none ∧
        "total_amount_missing" ∈ (parse_fields text p).2 ∧
        "total_amount_from_filename" ∉ (parse_fields text p).2))) ∧
    (∀ r, firstMatchAmount text = some r → r ≠ "" → normalize_amount r = none →
      (parse_fields text p).1.total_amount = none ∧
      "total_amount_invalid" ∈ (parse_fields text p).2 ∧
      "total_amount_from_filename" ∉ (parse_fields text p).2 ∧
      "total_amount_missing" ∉ (parse_fields text p).2) := by
  constructor
  · intro hb
    have har := amountResolve_of_not_truthy (firstMatchAmount text) p.name (by rw [hb]; rfl)
    constructor
    · intro a ha
      refine ⟨?_, ?_, ?_, ?_⟩
      · rw [parse_fields_fst]
        show (amountResolve (firstMatchAmount text) p.name).1 = some a
        rw [har]
        exact ha
      · rw [parse_fields_snd_eq, har]
        simp [ha]
      · intro hmem
        rw [parse_fields_snd_eq, har] at hmem
        simp [ha, List.mem_append, mem_ite_nil] at hmem
      · intro hmem
        rw [parse_fields_snd_eq, har] at hmem
        simp [ha, List.mem_append, mem_ite_nil] at hmem
    · intro ha
      refine ⟨?_, ?_, ?_⟩
      · rw [parse_fields_fst]
        show (amountResolve (firstMatchAmount text) p.name).1 = none
        rw [har]
        exact ha
      · rw [parse_fields_snd_eq, har]
        simp [ha]
      · intro hmem
        rw [parse_fields_snd_eq, har] at hmem
        simp [ha, List.mem_append, mem_ite_nil] at hmem
  · intro r hb hr hnorm
    have har := amountResolve_of_truthy r p.name hr
    refine ⟨?_, ?_, ?_, ?_⟩
    · rw [parse_fields_fst]
      show (amountResolve (firstMatchAmount text) p.name).1 = none
      rw [hb, har]
      exact hnorm
    · rw [parse_fields_snd_eq, hb, har]
      simp [hnorm]
    · intro hmem
      rw [parse_fields_snd_eq, hb, har] at hmem
      simp [hnorm, List.mem_append, mem_ite_nil] at hmem
    · intro hmem
      rw [parse_fields_snd_eq, hb, har] at hmem
      simp [hnorm, List.mem_append, mem_ite_nil] at hmem

/-- C7 witness: an empty body text with file name `x5,00.pdf` takes the
filename fallback, producing amount `5` and the informational code. -/
theorem C7_amount_fallback_witness :
    (parse_fields "" ⟨"x5,00.pdf", "x5,00.pdf"⟩).1.total_amount = some (5 : ℚ) ∧
    "total_amount_from_filename" ∈ (parse_fields "" ⟨"x5,00.pdf", "x5,00.pdf"⟩).2 := by
  have h := ((C7_amount_fallback "" ⟨"x5,00.pdf", "x5,00.pdf"⟩).1 (by decide)).1 5
    (by with_unfolding_all rfl)
  exact ⟨h.1, h.2.1⟩

/-- C8: `_suggested_action` is a pure function of the error-code set
(lists equal as sets map to the same action string); a record whose
errors are exactly the four missing-field codes, in any order and
multiplicity, gets the suggested action
`"Fill IBAN, Fill amount, Fill invoice number, Fill invoice date"` —
the fixed check order, independent of the error list's own order; and
when no recognized code is present the result defaults to
`"Review evidence manually"`. -/
theorem C8_suggested_action_order :
    (∀ l₁ l₂ : List String, (∀ e, e ∈ l₁ ↔ e ∈ l₂) →
      suggested_action l₁ = suggested_action l₂) ∧
    (∀ l : List String,
      (∀ e, e ∈ l ↔ e ∈ (["iban_missing_or_invalid", "total_amount_missing",
        "invoice_number_missing", "invoice_date_missing"] : List String)) →
      suggested_action l = "Fill IBAN, Fill amount, Fill invoice number, Fill invoice date") ∧
    (∀ l : List String,
      (∀ e ∈ l, e ≠ "iban_missing" ∧ e ≠ "iban_missing_or_invalid"
        ∧ e ≠ "total_amount_missing" ∧ e ≠ "total_amount_invalid"
        ∧ e ≠ "invoice_number_missing" ∧ e ≠ "invoice_date_missing"
        ∧ pyStartsWith e "pdf_read_error" = false ∧ pyStartsWith e "ocr_error" = false
        ∧ pyStartsWith e "unsupported_format" = false
        ∧ pyStartsWith e "non_pdf_evidence" = false) →
      suggested_action l = "Review evidence manually") := by
  have hcont : ∀ (l : List String) (x : String), (l.contains x = true) ↔ x ∈ l := by
    intro l x
    simp
  refine ⟨?_, ?_, ?_⟩
  · intro l₁ l₂ hset
    have hc : ∀ x : String, l₁.contains x = l₂.contains x := by
      intro x
      rw [Bool.eq_iff_iff, hcont, hcont]
      exact hset x
    have hany : ∀ q : String → Bool, l₁.any q = l₂.any q := by
      intro q
      rw [Bool.eq_iff_iff, List.any_eq_true, List.any_eq_true]
      constructor
      · rintro ⟨x, hx, hq⟩
        exact ⟨x, (hset x).mp hx, hq⟩
      · rintro ⟨x, hx, hq⟩
        exact ⟨x, (hset x).mpr hx, hq⟩
    simp only [suggested_action]
    rw [hc "iban_missing", hc "iban_missing_or_invalid", hc "total_amount_missing",
      hc "total_amount_invalid", hc "invoice_number_missing", hc "invoice_date_missing",
      hany (fun e => pyStartsWith e "pdf_read_error"), hany (fun e => pyStartsWith e "ocr_error"),
      hany (fun e => pyStartsWith e "unsupported_format"),
      hany (fun e => pyStartsWith e "non_pdf_evidence")]
  · intro l hset
    have hin : ∀ x : String, x ∈ (["iban_missing_or_invalid", "total_amount_missing",
        "invoice_number_missing", "invoice_date_missing"] : List String) →
        l.contains x = true :=
      fun x hx => (hcont l x).mpr ((hset x).mpr hx)
    have hout : ∀ x : String, x ∉ (["iban_missing_or_invalid", "total_amount_missing",
        "invoice_number_missing", "invoice_date_missing"] : List String) →
        l.contains x = false := by
      intro x hx
      cases hb : l.contains x with
      | true => exact absurd ((hset x).mp ((hcont l x).mp hb)) hx
      | false => rfl
    have hany : ∀ q : String → Bool,
        (∀ x ∈ (["iban_missing_or_invalid", "total_amount_missing",
          "invoice_number_missing", "invoice_date_missing"] : List String), q x = false) →
        l.any q = false := by
      intro q hq
      rw [List.any_eq_false]
      intro x hx
      rw [hq x ((hset x).mp hx)]
      exact Bool.false_ne_true
    simp only [suggested_action]
    rw [hin "iban_missing_or_invalid" (by simp), hin "total_amount_missing" (by simp),
      hin "invoice_number_missing" (by simp), hin "invoice_date_missing" (by simp),
      hout "iban_missing" (by decide), hout "total_amount_invalid" (by decide),
      hany (fun e => pyStartsWith e "pdf_read_error") (by decide),
      hany (fun e => pyStartsWith e "ocr_error") (by decide),
      hany (fun e => pyStartsWith e "unsupported_format") (by decide),
      hany (fun e => pyStartsWith e "non_pdf_evidence") (by decide)]
    rfl
  · intro l hnone
    have hcf : ∀ x : String, (∀ e ∈ l, e ≠ x) → l.contains x = false := by
      intro x hx
      cases hb : l.contains x with
      | true => exact absurd rfl (hx x ((hcont l x).mp hb))
      | false => rfl
    have haf : ∀ q : String → Bool, (∀ e ∈ l, q e = false) → l.any q = false := by
      intro q hq
      rw [List.any_eq_false]
      intro x hx
      rw [hq x hx]
      exact Bool.false_ne_true
    simp only [suggested_action]
    rw [hcf "iban_missing" (fun e he => (hnone e he).1),
      hcf "iban_missing_or_invalid" (fun e he => (hnone e he).2.1),
      hcf "total_amount_missing" (fun e he => (hnone e he).2.2.1),
      hcf "total_amount_invalid" (fun e he => (hnone e he).2.2.2.1),
      hcf "invoice_number_missing" (fun e he => (hnone e he).2.2.2.2.1),
      hcf "invoice_date_missing" (fun e he => (hnone e he).2.2.2.2.2.1),
      haf (fun e => pyStartsWith e "pdf_read_error") (fun e he => (hnone e he).2.2.2.2.2.2.1),
      haf (fun e => pyStartsWith e "ocr_error") (fun e he => (hnone e he).2.2.2.2.2.2.2.1),
      haf (fun e => pyStartsWith e "unsupported_format")
        (fun e he => (hnone e he).2.2.2.2.2.2.2.2.1),
      haf (fun e => pyStartsWith e "non_pdf_evidence")
        (fun e he => (hnone e he).2.2.2.2.2.2.2.2.2)]
    rfl

/-- C8 witness: the four missing-field codes in permuted order yield
`"Fill IBAN, Fill amount, Fill invoice number, Fill invoice date"`. -/
theorem C8_suggested_action_order_witness :
    suggested_action ["invoice_date_missing", "invoice_number_missing",
        "total_amount_missing", "iban_missing_or_invalid"]
      = "Fill IBAN, Fill amount, Fill invoice number, Fill invoice date" := by
  refine C8_suggested_action_order.2.1 _ ?_
  intro e
  constructor <;> intro h <;> simp at h ⊢ <;> tauto

/-- C9: every record produced by `detect_and_parse` — extraction
successes, acquisition failures, unsupported formats and XML stubs
alike — carries the constant currency `"EUR"`; the code
`currency_missing` is never emitted; and consequently `payment_ready`
depends only on a positive amount and a present IBAN, never failing on
account of currency. -/
theorem C9_currency_constant (env : Env) (p : PyPath) :
    (detect_and_parse env p).currency = some "EUR" ∧
    "currency_missing" ∉ (detect_and_parse env p).parse_errors ∧
    ((detect_and_parse env p).payment_ready = true ↔
      (∃ a : ℚ, (detect_and_parse env p).total_amount = some a ∧ 0 < a) ∧
      (detect_and_parse env p).iban.isSome = true) := by
  have hpfcur : ∀ text' : String, (parse_fields text' p).1.currency = some "EUR" := by
    intro t'
    rw [parse_fields_fst]
  have hpfib : ∀ (text' : String) (s : String),
      (parse_fields text' p).1.iban = some s → s ≠ "" := by
    intro t' s hs
    have h2 : (parse_fields t' p).1.iban = select_iban t' := by rw [parse_fields_fst]
    rw [h2] at hs
    exact select_iban_ne_empty hs
  have hibe : ∀ s : String, errorFields.iban = some s → s ≠ "" := by
    intro s hs
    simp [errorFields] at hs
  have hpdfmem : ∀ exc : String, "currency_missing" ∉ ["pdf_read_error:" ++ exc] := by
    intro exc hm
    simp at hm
    exact append_ne_of_head "pdf_read_error:" exc "currency_missing" rfl rfl
      (by decide) hm.symm
  have hocrmem : ∀ exc : String, "currency_missing" ∉ ["ocr_error:" ++ exc] := by
    intro exc hm
    simp at hm
    exact append_ne_of_head "ocr_error:" exc "currency_missing" rfl rfl (by decide) hm.symm
  by_cases h1 : pyLower (pathSuffix p) = ".pdf"
  · have hred : detect_and_parse env p = parse_pdf env p := by
      simp only [detect_and_parse]
      rw [if_pos h1]
    rw [hred]
    cases hx : env.extractPdfText p with
    | error exc =>
      have hr : parse_pdf env p
          = build_record env p "pdf_text" "pdf_text" "" errorFields
              ["pdf_read_error:" ++ exc] := by
        rw [parse_pdf.eq_def, hx]
      rw [hr]
      exact build_record_invariants env p _ _ _ errorFields _ rfl hibe (hpdfmem exc)
    | ok text =>
      by_cases hlen : (pyStripStr text).length < 40
      · cases ho : env.ocrPdf p with
        | error exc =>
          have hr : parse_pdf env p
              = build_record env p "pdf_scan" "pdf_text" text (parse_fields text p).1
                  ((parse_fields text p).2 ++ ["ocr_error:" ++ exc]) := by
            rw [parse_pdf.eq_def, hx]
            simp only [if_pos hlen]
            rw [ho]
          rw [hr]
          refine build_record_invariants env p _ _ _ _ _ (hpfcur text) (hpfib text) ?_
          intro hm
          rcases List.mem_append.mp hm with hm | hm
          · exact currency_missing_not_parse_fields text p hm
          · exact hocrmem exc hm
        | ok ocrText =>
          have hr : parse_pdf env p
              = build_record env p "pdf_scan" "ocr" ocrText (parse_fields ocrText p).1
                  (parse_fields ocrText p).2 := by
            rw [parse_pdf.eq_def, hx]
            simp only [if_pos hlen]
            rw [ho]
          rw [hr]
          exact build_record_invariants env p _ _ _ _ _ (hpfcur ocrText) (hpfib ocrText)
            (currency_missing_not_parse_fields ocrText p)
      · have hr : parse_pdf env p
            = build_record env p "pdf_text" "pdf_text" text (parse_fields text p).1
                (parse_fields text p).2 := by
          rw [parse_pdf.eq_def, hx]
          simp only [if_neg hlen]
        rw [hr]
        exact build_record_invariants env p _ _ _ _ _ (hpfcur text) (hpfib text)
          (currency_missing_not_parse_fields text p)
  · by_cases h2 : pyLower (pathSuffix p) = ".png" ∨ pyLower (pathSuffix p) = ".jpg"
        ∨ pyLower (pathSuffix p) = ".jpeg"
    · have hred : detect_and_parse env p = parse_image env p := by
        simp only [detect_and_parse]
        rw [if_neg h1, if_pos h2]
      rw [hred]
      cases hx : env.ocrImage p with
      | error exc =>
        have hr : parse_image env p
            = build_record env p "image" "ocr" "" errorFields ["ocr_error:" ++ exc] := by
          rw [parse_image.eq_def, hx]
        rw [hr]
        exact build_record_invariants env p _ _ _ errorFields _ rfl hibe (hocrmem exc)
      | ok text =>
        have hr : parse_image env p
            = build_record env p "image" "ocr" text (parse_fields text p).1
                (parse_fields text p).2 := by
          rw [parse_image.eq_def, hx]
        rw [hr]
        exact build_record_invariants env p _ _ _ _ _ (hpfcur text) (hpfib text)
          (currency_missing_not_parse_fields text p)
    · by_cases h3 : pyLower (pathSuffix p) = ".xml"
      · have hred : detect_and_parse env p
            = build_record env p "xml" "xml" "" errorFields
                ["xml_parsing_not_implemented"] := by
          simp only [detect_and_parse]
          rw [if_neg h1, if_neg h2, if_pos h3]
          rfl
        rw [hred]
        exact build_record_invariants env p _ _ _ errorFields _ rfl hibe (by decide)
      · have hred : detect_and_parse env p
            = build_record env p "unknown" "unknown" "" errorFields
                ["unsupported_format:"
                  ++ (if pyLower (pathSuffix p) = "" then "unknown"
                      else pyLower (pathSuffix p))] := by
          simp only [detect_and_parse]
          rw [if_neg h1, if_neg h2, if_neg h3]
        rw [hred]
        refine build_record_invariants env p _ _ _ errorFields _ rfl hibe ?_
        intro hm
        simp at hm
        exact append_ne_of_head "unsupported_format:"
          (if pyLower (pathSuffix p) = "" then "unknown" else pyLower (pathSuffix p))
          "currency_missing" rfl rfl (by decide) hm.symm

/-- C10: a file whose lower-cased suffix is `.xml` undergoes no
extraction at all — the record has evidence type and extraction method
`"xml"`, empty text preview, every extracted field absent except the
constant currency `"EUR"`, parse_errors exactly
`["xml_parsing_not_implemented"]`, payment_ready false and status
`needs_review`; that code matches nothing in the remediation advisor,
which therefore returns the default `"Review evidence manually"`. -/
theorem C10_xml_stub (env : Env) (p : PyPath) (h : pyLower (pathSuffix p) = ".xml") :
    detect_and_parse env p =
      { file_path := p.path, file_name := p.name, sha256 := env.fileSha p
      , evidence_type := "xml", extraction_method := "xml", text_preview := ""
      , invoice_number := none, invoice_date := none, total_amount := none
      , currency := some "EUR", iban := none, bic := none
      , status := "needs_review", payment_ready := false
      , parse_errors := ["xml_parsing_not_implemented"] } ∧
    suggested_action ["xml_parsing_not_implemented"] = "Review evidence manually" := by
  constructor
  · simp only [detect_and_parse]
    rw [if_neg (by intro hh; rw [h] at hh; exact absurd hh (by decide))]
    rw [if_neg (by rintro (hh | hh | hh) <;> rw [h] at hh <;> exact absurd hh (by decide))]
    rw [if_pos h]
    rfl
  · rfl

/-- C10 witness: the concrete file `a.xml`. -/
theorem C10_xml_stub_witness :
    (detect_and_parse
        ⟨fun _ => Except.error "", fun _ => Except.error "", fun _ => Except.error "",
          fun _ => "h"⟩ ⟨"a.xml", "a.xml"⟩).parse_errors = ["xml_parsing_not_implemented"] ∧
    (detect_and_parse
        ⟨fun _ => Except.error "", fun _ => Except.error "", fun _ => Except.error "",
          fun _ => "h"⟩ ⟨"a.xml", "a.xml"⟩).status = "needs_review" ∧
    (detect_and_parse
        ⟨fun _ => Except.error "", fun _ => Except.error "", fun _ => Except.error "",
          fun _ => "h"⟩ ⟨"a.xml", "a.xml"⟩).currency = some "EUR" := by
  have h := (C10_xml_stub
    ⟨fun _ => Except.error "", fun _ => Except.error "", fun _ => Except.error "",
      fun _ => "h"⟩ ⟨"a.xml", "a.xml"⟩ (by decide)).1
  exact ⟨by rw [h], by rw [h], by rw [h]⟩

end Speer
